import Mathlib

set_option maxRecDepth 8000

/-!
Shallow embedding of the caddy-usage plugin (caddy_usage.go): the client-IP
resolver `getClientIP`, header-metric derivation `collectHeaderMetrics`,
per-request recording `collectMetrics`, and the registration path
`initializeMetrics` / `registerMetrics` against a Prometheus-style registry.
Go strings are modelled as lists of characters; the metric sink is modelled as
a store of counter cells and histogram observation lists keyed by instrument
identity.
-/

namespace CaddyUsage

instance {ε α : Type} [DecidableEq ε] [DecidableEq α] : DecidableEq (Except ε α) :=
  fun x y =>
  match x, y with
  | .ok a, .ok b =>
    if h : a = b then isTrue (by rw [h]) else isFalse (fun hc => h (Except.ok.inj hc))
  | .error a, .error b =>
    if h : a = b then isTrue (by rw [h]) else isFalse (fun hc => h (Except.error.inj hc))
  | .ok _, .error _ => isFalse (fun hc => Except.noConfusion hc)
  | .error _, .ok _ => isFalse (fun hc => Except.noConfusion hc)

/-- Go strings, modelled as lists of characters. -/
abbrev Str := List Char

/-- Coerce a Lean string literal to the Go-string model. -/
def str (s : String) : Str := s.toList

/-- Go strings.TrimSpace: drop whitespace from both ends. -/
def trimSpace (s : Str) : Str :=
  ((s.dropWhile Char.isWhitespace).reverse.dropWhile Char.isWhitespace).reverse

/-- Go strings.Split with a one-character separator: the resulting list is
never empty, and concatenating it with the separator restores the input. -/
def splitChar (c : Char) : Str → List Str
  | [] => [[]]
  | x :: xs =>
    let r := splitChar c xs
    if x = c then [] :: r else (x :: r.headD []) :: r.tail

/-- Go strings.Index for the character ']' followed by the slice
remoteAddr[:endBracket+1]: the prefix of the string through the first ']'
inclusive, or none when no ']' occurs (Index returns -1). -/
def upToBracket : Str → Option Str
  | [] => none
  | x :: xs => if x = ']' then some [x] else (upToBracket xs).map (x :: ·)

/-- Header access, modelling http.Header.Get on canonical MIME header names:
an absent header and a present-but-empty header both yield the empty string. -/
abbrev Headers := Str → Str

def hdrXFF : Str := str "X-Forwarded-For"

def hdrXRealIP : Str := str "X-Real-IP"

def hdrXForwarded : Str := str "X-Forwarded"

/-- Final fallback of getClientIP on r.RemoteAddr: the bracketed-IPv6 branch
(HasPrefix "[" and a ']' present: return through the bracket), otherwise the
portion before the first colon; strings.Split never returns an empty slice, so
the trailing return of the whole address only fires through headD. -/
def remoteAddrFallback (remoteAddr : Str) : Str :=
  match (if remoteAddr.take 1 = ['['] then upToBracket remoteAddr else none) with
  | some bracketed => bracketed
  | none => (splitChar ':' remoteAddr).headD remoteAddr

/-- getClientIP from caddy_usage.go: X-Forwarded-For first element (trimmed),
then X-Real-IP verbatim, then X-Forwarded verbatim, then the peer-address
fallback. The Go guard on len(ips) > 0 always holds because strings.Split
never returns an empty slice, hence the headD with an irrelevant default. -/
def getClientIP (h : Headers) (remoteAddr : Str) : Str :=
  let xff := h hdrXFF
  if xff ≠ [] then
    trimSpace ((splitChar ',' xff).headD [])
  else
    let xri := h hdrXRealIP
    if xri ≠ [] then xri
    else
      let xf := h hdrXForwarded
      if xf ≠ [] then xf
      else remoteAddrFallback remoteAddr

/-- The fixed allow-list of tracked headers from collectHeaderMetrics. -/
def importantHeaders : List Str :=
  [str "User-Agent", str "Referer", str "Accept", str "Accept-Language",
   str "Accept-Encoding", str "Content-Type", str "Authorization",
   str "X-Forwarded-For", str "X-Real-IP", str "Origin"]

/-- Value transformation applied inside the collectHeaderMetrics loop:
Authorization is replaced by the literal "present", then any value longer
than 100 characters is truncated to its first 100 characters plus "...". -/
def transformHeaderValue (headerName headerValue : Str) : Str :=
  let v := if headerName = str "Authorization" then str "present" else headerValue
  if v.length > 100 then v.take 100 ++ str "..." else v

/-- The loop body of collectHeaderMetrics over an explicit name list: for each
name whose value is non-empty, emit the label tuple
[header_name, header_value, method, status_code] of the counter increment. -/
def collectHeaderMetricsList (h : Headers) (method statusCode : Str) :
    List Str → List (List Str)
  | [] => []
  | headerName :: rest =>
    let headerValue := h headerName
    if headerValue = [] then collectHeaderMetricsList h method statusCode rest
    else [headerName, transformHeaderValue headerName headerValue, method, statusCode]
      :: collectHeaderMetricsList h method statusCode rest

/-- collectHeaderMetrics from caddy_usage.go: the increments made to
requests_by_headers_total for one request, in allow-list order. -/
def collectHeaderMetrics (h : Headers) (method statusCode : Str) : List (List Str) :=
  collectHeaderMetricsList h method statusCode importantHeaders

/-- The metric sink: counter cells and histogram observation lists, keyed by
instrument identity (a Nat standing for the Go pointer) and label-value tuple.
nextId supplies fresh identities for newly constructed instruments. -/
structure World where
  nextId : Nat
  counts : Nat → List Str → Nat
  observed : Nat → List Str → List Rat

/-- CounterVec.WithLabelValues(...).Inc(): bump one counter cell. -/
def incCounter (w : World) (id : Nat) (labels : List Str) : World :=
  { w with counts := fun i ls =>
      if i = id ∧ ls = labels then w.counts i ls + 1 else w.counts i ls }

/-- HistogramVec.WithLabelValues(...).Observe(v): append one observation. -/
def observeHist (w : World) (id : Nat) (labels : List Str) (v : Rat) : World :=
  { w with observed := fun i ls =>
      if i = id ∧ ls = labels then w.observed i ls ++ [v] else w.observed i ls }

/-- The usageMetrics struct: the five instruments, by identity. -/
structure UsageMetrics where
  requestsTotal : Nat
  requestsByIP : Nat
  requestsByURL : Nat
  requestsByHeaders : Nat
  requestDuration : Nat
deriving DecidableEq, Repr

/-- The Prometheus registry: registered full metric names with the identity of
the collector registered under each name. -/
abbrev Registry := List (String × Nat)

/-- Lookup of a name in the registry. -/
def regFind : Registry → String → Option Nat
  | [], _ => none
  | (n, i) :: rest, name => if name = n then some i else regFind rest name

/-- Environment of the registry: for each name not yet registered, whether the
sink fails its registration with some non-duplicate error. -/
abbrev FailSpec := String → Option String

/-- Full names of the five instruments, namespace caddy, subsystem usage, in
the order of the collectors slice of initializeMetrics. -/
def metricNames : List String :=
  ["caddy_usage_requests_total", "caddy_usage_requests_by_ip_total",
   "caddy_usage_requests_by_url_total", "caddy_usage_requests_by_headers_total",
   "caddy_usage_request_duration_seconds"]

/-- Outcome of registry.Register(collector): success, an
AlreadyRegisteredError carrying the existing collector, or another error. -/
inductive RegResult where
  | ok (reg : Registry)
  | alreadyRegistered (existing : Nat)
  | failed (e : String)

/-- registry.Register for one collector: a duplicate name yields
AlreadyRegisteredError with the existing collector; otherwise the sink may
fail with a non-duplicate error, else the collector is registered. -/
def registerOne (reg : Registry) (fs : FailSpec) (name : String) (id : Nat) :
    RegResult :=
  match regFind reg name with
  | some existing => .alreadyRegistered existing
  | none =>
    match fs name with
    | some e => .failed e
    | none => .ok ((name, id) :: reg)

/-- The registration loop of initializeMetrics: register each collector in
order; on AlreadyRegisteredError continue (the error is discarded, including
its existing collector); on any other error stop and return it, keeping the
registrations already made. -/
def registerAll (fs : FailSpec) : Registry → List (String × Nat) →
    Registry × Option String
  | reg, [] => (reg, none)
  | reg, (name, id) :: rest =>
    match registerOne reg fs name id with
    | .ok reg2 => registerAll fs reg2 rest
    | .alreadyRegistered _ => registerAll fs reg rest
    | .failed e => (reg, some e)

/-- initializeMetrics from caddy_usage.go: construct the five instruments
(fresh identities), then register them one at a time; a non-duplicate error
aborts and is returned, otherwise the newly constructed struct is returned. -/
def initializeMetrics (reg : Registry) (fs : FailSpec) (w : World) :
    Except String UsageMetrics × Registry × World :=
  let m : UsageMetrics :=
    ⟨w.nextId, w.nextId + 1, w.nextId + 2, w.nextId + 3, w.nextId + 4⟩
  let w2 : World := { w with nextId := w.nextId + 5 }
  let ids := [m.requestsTotal, m.requestsByIP, m.requestsByURL,
    m.requestsByHeaders, m.requestDuration]
  match registerAll fs reg (metricNames.zip ids) with
  | (reg2, none) => (.ok m, reg2, w2)
  | (reg2, some e) => (.error e, reg2, w2)

/-- Process state around the registration path: the shared registry, the
package-level globalUsageMetrics variable, and the metric sink. -/
structure AppState where
  registry : Registry
  globalUsageMetrics : Option UsageMetrics
  world : World

/-- registerMetrics from caddy_usage.go: run initializeMetrics; propagate its
error; on success set globalUsageMetrics only when it is still nil. -/
def registerMetrics (fs : FailSpec) (s : AppState) : Option String × AppState :=
  match initializeMetrics s.registry fs s.world with
  | (.error e, reg2, w2) => (some e, { s with registry := reg2, world := w2 })
  | (.ok m, reg2, w2) =>
    (none, { registry := reg2, world := w2,
             globalUsageMetrics :=
               match s.globalUsageMetrics with
               | none => some m
               | some g => some g })

/-- Request snapshot seen by collectMetrics: method, host, path, full URL
(r.URL.String(), path plus query string), headers, and peer address. -/
structure Request where
  method : Str
  host : Str
  path : Str
  fullURL : Str
  headers : Headers
  remoteAddr : Str

/-- Go strconv.Itoa on the (non-negative) response status code. -/
def itoa (n : Nat) : Str := (Nat.repr n).toList

/-- Apply the requests_by_headers_total increments of one request in order. -/
def applyHeaderIncs (w : World) (id : Nat) : List (List Str) → World
  | [] => w
  | labels :: rest => applyHeaderIncs (incCounter w id labels) id rest

/-- collectMetrics from caddy_usage.go: if globalUsageMetrics is nil, log and
return with nothing updated; otherwise increment requests_total,
requests_by_ip_total and requests_by_url_total, observe
request_duration_seconds, and record the tracked-header increments. The
elapsed duration in seconds is passed in, standing for time.Since(start). -/
def collectMetrics (g : Option UsageMetrics) (w : World) (r : Request)
    (status : Nat) (duration : Rat) : World :=
  match g with
  | none => w
  | some m =>
    let statusCode := itoa status
    let w1 := incCounter w m.requestsTotal [statusCode, r.method, r.host, r.path]
    let w2 := incCounter w1 m.requestsByIP
      [getClientIP r.headers r.remoteAddr, statusCode, r.method]
    let w3 := incCounter w2 m.requestsByURL [r.fullURL, r.method, statusCode]
    let w4 := observeHist w3 m.requestDuration [r.method, statusCode, r.host] duration
    applyHeaderIncs w4 m.requestsByHeaders
      (collectHeaderMetrics r.headers r.method statusCode)

/-- One completed request recorded against the process state. -/
def recordRequest (s : AppState) (r : Request) (status : Nat) (dur : Rat) :
    AppState :=
  { s with world := collectMetrics s.globalUsageMetrics s.world r status dur }

/-- The sink before any registration or recording. -/
def emptyWorld : World := ⟨0, fun _ _ => 0, fun _ _ => []⟩

/-- Process state at startup: empty registry, nil globalUsageMetrics. -/
def initialState : AppState := ⟨[], none, emptyWorld⟩

/-- A registry whose sink rejects nothing except duplicates. -/
def noFail : FailSpec := fun _ => none

/-- Pairwise distinctness of the five instruments of a metric set; this holds
for every set built by initializeMetrics, whose instruments are freshly
constructed. -/
def idsDistinct (m : UsageMetrics) : Prop :=
  m.requestsTotal ≠ m.requestsByIP ∧ m.requestsTotal ≠ m.requestsByURL ∧
  m.requestsTotal ≠ m.requestsByHeaders ∧ m.requestsTotal ≠ m.requestDuration ∧
  m.requestsByIP ≠ m.requestsByURL ∧ m.requestsByIP ≠ m.requestsByHeaders ∧
  m.requestsByIP ≠ m.requestDuration ∧ m.requestsByURL ≠ m.requestsByHeaders ∧
  m.requestsByURL ≠ m.requestDuration ∧ m.requestsByHeaders ≠ m.requestDuration

instance (m : UsageMetrics) : Decidable (idsDistinct m) := by
  unfold idsDistinct; infer_instance

/-- The metric set produced by the first initialization of a fresh process. -/
def m0 : UsageMetrics := ⟨0, 1, 2, 3, 4⟩

/-- A request with no headers at all. -/
def noHeaders : Headers := fun _ => []

/-- Headers carrying only X-Forwarded-For with a three-hop proxy chain. -/
def xffHeaders : Headers := fun n => if n = hdrXFF then str "a, b, c" else []

/-- Headers carrying only an Authorization credential. -/
def authHeaders : Headers :=
  fun n => if n = str "Authorization" then str "Bearer xyz" else []

/-- Headers carrying a 150-character User-Agent value. -/
def longHeaders : Headers :=
  fun n => if n = str "User-Agent" then List.replicate 150 'a' else []

/-- Headers carrying one tracked header and one untracked header. -/
def mixedHeaders : Headers :=
  fun n =>
    if n = str "User-Agent" then str "UA"
    else if n = str "X-Custom-Header" then str "x" else []

/-- A concrete plain request used to instantiate recording theorems. -/
def exReq : Request :=
  ⟨str "GET", str "example.com", str "/test", str "/test?x=1", noHeaders,
   str "1.2.3.4:80"⟩

/-- A sink that rejects the third instrument with a non-duplicate error. -/
def failURL : FailSpec :=
  fun n => if n = "caddy_usage_requests_by_url_total" then some "boom" else none

/-- A registry on which requests_total is already registered as collector 0. -/
def regDup : Registry := [("caddy_usage_requests_total", 0)]

/-- A sink whose fresh-identity counter has already produced collector 0. -/
def worldAfterOne : World := ⟨1, fun _ _ => 0, fun _ _ => []⟩

/-- Process state after the first registerMetrics call of a fresh process. -/
def stateAfterInit1 : AppState := (registerMetrics noFail initialState).2

/-! Helper lemmas about the string model. -/

theorem splitChar_headD (c : Char) (s : Str) (d : Str) :
    (splitChar c s).headD d = s.takeWhile (fun x => x ≠ c) := by
  induction s generalizing d with
  | nil => simp [splitChar]
  | cons x xs ih =>
    by_cases hx : x = c
    · subst hx; simp [splitChar, List.takeWhile_cons]
    · have hr := ih ([] : Str)
      simp only [splitChar, if_neg hx, List.headD_cons, List.takeWhile_cons]
      rw [if_pos (by simp [hx]), hr]

theorem upToBracket_of_mem (s : Str) (hm : ']' ∈ s) :
    upToBracket s = some (s.takeWhile (fun x => x ≠ ']') ++ [']']) := by
  induction s with
  | nil => cases hm
  | cons x xs ih =>
    by_cases hx : x = ']'
    · subst hx; simp [upToBracket, List.takeWhile]
    · have hxs : ']' ∈ xs := by
        cases hm with
        | head => exact absurd rfl hx
        | tail _ h => exact h
      simp [upToBracket, hx, ih hxs, List.takeWhile]

theorem upToBracket_of_not_mem (s : Str) (hm : ']' ∉ s) : upToBracket s = none := by
  induction s with
  | nil => rfl
  | cons x xs ih =>
    have hx : x ≠ ']' := fun h => hm (h ▸ List.mem_cons_self x xs)
    have hxs : ']' ∉ xs := fun h => hm (List.mem_cons_of_mem x h)
    simp [upToBracket, hx, ih hxs]

/-! Helper lemmas about the metric sink. -/

theorem incCounter_counts_self (w : World) (id : Nat) (ls : List Str) :
    (incCounter w id ls).counts id ls = w.counts id ls + 1 := by
  simp [incCounter]

theorem incCounter_counts_ne_id (w : World) (id : Nat) (ls : List Str)
    (i : Nat) (ls2 : List Str) (h : i ≠ id) :
    (incCounter w id ls).counts i ls2 = w.counts i ls2 := by
  simp [incCounter, h]

theorem incCounter_counts_ne_labels (w : World) (id : Nat) (ls : List Str)
    (i : Nat) (ls2 : List Str) (h : ls2 ≠ ls) :
    (incCounter w id ls).counts i ls2 = w.counts i ls2 := by
  simp [incCounter, h]

theorem incCounter_observed (w : World) (id : Nat) (ls : List Str) :
    (incCounter w id ls).observed = w.observed := rfl

theorem incCounter_nextId (w : World) (id : Nat) (ls : List Str) :
    (incCounter w id ls).nextId = w.nextId := rfl

theorem observeHist_counts (w : World) (id : Nat) (ls : List Str) (v : Rat) :
    (observeHist w id ls v).counts = w.counts := rfl

theorem observeHist_nextId (w : World) (id : Nat) (ls : List Str) (v : Rat) :
    (observeHist w id ls v).nextId = w.nextId := rfl

theorem observeHist_observed_self (w : World) (id : Nat) (ls : List Str) (v : Rat) :
    (observeHist w id ls v).observed id ls = w.observed id ls ++ [v] := by
  simp [observeHist]

theorem observeHist_observed_ne (w : World) (id : Nat) (ls : List Str) (v : Rat)
    (i : Nat) (ls2 : List Str) (h : ¬(i = id ∧ ls2 = ls)) :
    (observeHist w id ls v).observed i ls2 = w.observed i ls2 := by
  simp only [observeHist, if_neg h]

theorem applyHeaderIncs_observed (id : Nat) (incs : List (List Str)) (w : World) :
    (applyHeaderIncs w id incs).observed = w.observed := by
  induction incs generalizing w with
  | nil => rfl
  | cons labels rest ih => simp [applyHeaderIncs, ih, incCounter_observed]

theorem applyHeaderIncs_nextId (id : Nat) (incs : List (List Str)) (w : World) :
    (applyHeaderIncs w id incs).nextId = w.nextId := by
  induction incs generalizing w with
  | nil => rfl
  | cons labels rest ih => simp [applyHeaderIncs, ih, incCounter_nextId]

theorem applyHeaderIncs_counts_ne_id (id : Nat) (incs : List (List Str))
    (w : World) (i : Nat) (ls : List Str) (h : i ≠ id) :
    (applyHeaderIncs w id incs).counts i ls = w.counts i ls := by
  induction incs generalizing w with
  | nil => rfl
  | cons labels rest ih =>
    simp [applyHeaderIncs, ih, incCounter_counts_ne_id _ _ _ _ _ h]

theorem applyHeaderIncs_counts_count (id : Nat) (incs : List (List Str))
    (w : World) (ls : List Str) :
    (applyHeaderIncs w id incs).counts id ls = w.counts id ls + incs.count ls := by
  induction incs generalizing w with
  | nil => simp [applyHeaderIncs]
  | cons labels rest ih =>
    simp only [applyHeaderIncs, ih, List.count_cons]
    by_cases hl : ls = labels
    · subst hl; simp [incCounter_counts_self]; omega
    · simp [incCounter_counts_ne_labels _ _ _ _ _ hl, hl, Ne.symm hl]

/-! Effect of one collectMetrics call on each instrument. -/

theorem collectMetrics_counts_total (m : UsageMetrics) (w : World) (r : Request)
    (status : Nat) (dur : Rat) (hd : idsDistinct m) :
    (collectMetrics (some m) w r status dur).counts m.requestsTotal
      [itoa status, r.method, r.host, r.path]
    = w.counts m.requestsTotal [itoa status, r.method, r.host, r.path] + 1 := by
  obtain ⟨h1, h2, h3, _, _, _, _, _, _, _⟩ := hd
  simp only [collectMetrics]
  rw [applyHeaderIncs_counts_ne_id _ _ _ _ _ h3, observeHist_counts,
    incCounter_counts_ne_id _ _ _ _ _ h2, incCounter_counts_ne_id _ _ _ _ _ h1,
    incCounter_counts_self]

theorem collectMetrics_counts_total_frame (m : UsageMetrics) (w : World)
    (r : Request) (status : Nat) (dur : Rat) (hd : idsDistinct m)
    (ls : List Str) (hls : ls ≠ [itoa status, r.method, r.host, r.path]) :
    (collectMetrics (some m) w r status dur).counts m.requestsTotal ls
    = w.counts m.requestsTotal ls := by
  obtain ⟨h1, h2, h3, _, _, _, _, _, _, _⟩ := hd
  simp only [collectMetrics]
  rw [applyHeaderIncs_counts_ne_id _ _ _ _ _ h3, observeHist_counts,
    incCounter_counts_ne_id _ _ _ _ _ h2, incCounter_counts_ne_id _ _ _ _ _ h1,
    incCounter_counts_ne_labels _ _ _ _ _ hls]

theorem collectMetrics_counts_byIP (m : UsageMetrics) (w : World) (r : Request)
    (status : Nat) (dur : Rat) (hd : idsDistinct m) :
    (collectMetrics (some m) w r status dur).counts m.requestsByIP
      [getClientIP r.headers r.remoteAddr, itoa status, r.method]
    = w.counts m.requestsByIP
        [getClientIP r.headers r.remoteAddr, itoa status, r.method] + 1 := by
  obtain ⟨h1, _, _, _, h5, h6, _, _, _, _⟩ := hd
  simp only [collectMetrics]
  rw [applyHeaderIncs_counts_ne_id _ _ _ _ _ h6, observeHist_counts,
    incCounter_counts_ne_id _ _ _ _ _ h5, incCounter_counts_self,
    incCounter_counts_ne_id _ _ _ _ _ (Ne.symm h1)]

theorem collectMetrics_counts_byIP_frame (m : UsageMetrics) (w : World)
    (r : Request) (status : Nat) (dur : Rat) (hd : idsDistinct m) (ls : List Str)
    (hls : ls ≠ [getClientIP r.headers r.remoteAddr, itoa status, r.method]) :
    (collectMetrics (some m) w r status dur).counts m.requestsByIP ls
    = w.counts m.requestsByIP ls := by
  obtain ⟨h1, _, _, _, h5, h6, _, _, _, _⟩ := hd
  simp only [collectMetrics]
  rw [applyHeaderIncs_counts_ne_id _ _ _ _ _ h6, observeHist_counts,
    incCounter_counts_ne_id _ _ _ _ _ h5,
    incCounter_counts_ne_labels _ _ _ _ _ hls,
    incCounter_counts_ne_id _ _ _ _ _ (Ne.symm h1)]

theorem collectMetrics_counts_byURL (m : UsageMetrics) (w : World) (r : Request)
    (status : Nat) (dur : Rat) (hd : idsDistinct m) :
    (collectMetrics (some m) w r status dur).counts m.requestsByURL
      [r.fullURL, r.method, itoa status]
    = w.counts m.requestsByURL [r.fullURL, r.method, itoa status] + 1 := by
  obtain ⟨_, h2, _, _, h5, _, _, h8, _, _⟩ := hd
  simp only [collectMetrics]
  rw [applyHeaderIncs_counts_ne_id _ _ _ _ _ h8, observeHist_counts,
    incCounter_counts_self, incCounter_counts_ne_id _ _ _ _ _ (Ne.symm h5),
    incCounter_counts_ne_id _ _ _ _ _ (Ne.symm h2)]

theorem collectMetrics_counts_byURL_frame (m : UsageMetrics) (w : World)
    (r : Request) (status : Nat) (dur : Rat) (hd : idsDistinct m) (ls : List Str)
    (hls : ls ≠ [r.fullURL, r.method, itoa status]) :
    (collectMetrics (some m) w r status dur).counts m.requestsByURL ls
    = w.counts m.requestsByURL ls := by
  obtain ⟨_, h2, _, _, h5, _, _, h8, _, _⟩ := hd
  simp only [collectMetrics]
  rw [applyHeaderIncs_counts_ne_id _ _ _ _ _ h8, observeHist_counts,
    incCounter_counts_ne_labels _ _ _ _ _ hls,
    incCounter_counts_ne_id _ _ _ _ _ (Ne.symm h5),
    incCounter_counts_ne_id _ _ _ _ _ (Ne.symm h2)]

theorem collectMetrics_counts_byHeaders (m : UsageMetrics) (w : World)
    (r : Request) (status : Nat) (dur : Rat) (hd : idsDistinct m) (ls : List Str) :
    (collectMetrics (some m) w r status dur).counts m.requestsByHeaders ls
    = w.counts m.requestsByHeaders ls
      + (collectHeaderMetrics r.headers r.method (itoa status)).count ls := by
  obtain ⟨_, _, h3, _, _, h6, _, h8, _, _⟩ := hd
  simp only [collectMetrics]
  rw [applyHeaderIncs_counts_count, observeHist_counts,
    incCounter_counts_ne_id _ _ _ _ _ (Ne.symm h8),
    incCounter_counts_ne_id _ _ _ _ _ (Ne.symm h6),
    incCounter_counts_ne_id _ _ _ _ _ (Ne.symm h3)]

theorem collectMetrics_observed_duration (m : UsageMetrics) (w : World)
    (r : Request) (status : Nat) (dur : Rat) :
    (collectMetrics (some m) w r status dur).observed m.requestDuration
      [r.method, itoa status, r.host]
    = w.observed m.requestDuration [r.method, itoa status, r.host] ++ [dur] := by
  simp only [collectMetrics]
  rw [applyHeaderIncs_observed, observeHist_observed_self, incCounter_observed,
    incCounter_observed, incCounter_observed]

theorem collectMetrics_observed_frame (m : UsageMetrics) (w : World)
    (r : Request) (status : Nat) (dur : Rat) (i : Nat) (ls : List Str)
    (h : ¬(i = m.requestDuration ∧ ls = [r.method, itoa status, r.host])) :
    (collectMetrics (some m) w r status dur).observed i ls = w.observed i ls := by
  simp only [collectMetrics]
  rw [applyHeaderIncs_observed, observeHist_observed_ne _ _ _ _ _ _ h,
    incCounter_observed, incCounter_observed, incCounter_observed]

/-! Membership and multiplicity of the header increments. -/

theorem mem_collectHeaderMetricsList (h : Headers) (method statusCode : Str)
    (L : List Str) (t : List Str) :
    t ∈ collectHeaderMetricsList h method statusCode L ↔
      ∃ n, n ∈ L ∧ h n ≠ [] ∧
        t = [n, transformHeaderValue n (h n), method, statusCode] := by
  induction L with
  | nil => simp [collectHeaderMetricsList]
  | cons x xs ih =>
    by_cases hx : h x = []
    · simp only [collectHeaderMetricsList, if_pos hx, ih]
      constructor
      · rintro ⟨n, hn, hne, ht⟩
        exact ⟨n, List.mem_cons_of_mem _ hn, hne, ht⟩
      · rintro ⟨n, hn, hne, ht⟩
        rcases List.mem_cons.1 hn with rfl | hn2
        · exact absurd hx hne
        · exact ⟨n, hn2, hne, ht⟩
    · simp only [collectHeaderMetricsList, if_neg hx, List.mem_cons, ih]
      constructor
      · rintro (rfl | ⟨n, hn, hne, ht⟩)
        · exact ⟨x, Or.inl rfl, hx, rfl⟩
        · exact ⟨n, Or.inr hn, hne, ht⟩
      · rintro ⟨n, rfl | hn2, hne, ht⟩
        · exact Or.inl ht
        · exact Or.inr ⟨n, hn2, hne, ht⟩

theorem count_collectHeaderMetricsList (h : Headers) (method statusCode : Str)
    (L : List Str) (hnd : L.Nodup) (n : Str) (hin : n ∈ L) (hne : h n ≠ []) :
    (collectHeaderMetricsList h method statusCode L).count
      [n, transformHeaderValue n (h n), method, statusCode] = 1 := by
  induction L with
  | nil => cases hin
  | cons x xs ih =>
    rw [List.nodup_cons] at hnd
    obtain ⟨hxnot, hndxs⟩ := hnd
    rcases List.mem_cons.1 hin with rfl | hnxs
    · simp only [collectHeaderMetricsList, if_neg hne]
      rw [List.count_cons]
      have hz : (collectHeaderMetricsList h method statusCode xs).count
          [n, transformHeaderValue n (h n), method, statusCode] = 0 := by
        rw [List.count_eq_zero]
        intro hmem
        rw [mem_collectHeaderMetricsList] at hmem
        obtain ⟨n2, hn2, _, ht⟩ := hmem
        have : n = n2 := by
          have := congrArg (fun l => l.headD []) ht
          simpa using this
        exact hxnot (this ▸ hn2)
      simp [hz]
    · have hnex : n ≠ x := fun he => hxnot (he ▸ hnxs)
      by_cases hx : h x = []
      · simp only [collectHeaderMetricsList, if_pos hx]
        exact ih hndxs hnxs
      · simp only [collectHeaderMetricsList, if_neg hx]
        rw [List.count_cons]
        have hne2 : ¬([x, transformHeaderValue x (h x), method, statusCode]
            = [n, transformHeaderValue n (h n), method, statusCode]) := by
          intro he
          have : x = n := by
            have := congrArg (fun l => l.headD []) he
            simpa using this
          exact hnex this.symm
        rw [if_neg (fun hbe => hne2 (by simpa using hbe)), ih hndxs hnxs]

/-! Lemmas about the registration loop. -/

theorem registerAll_snd_none (fs : FailSpec) (pairs : List (String × Nat)) :
    ∀ reg : Registry, (∀ p ∈ pairs, regFind reg p.1 = none → fs p.1 = none) →
      (registerAll fs reg pairs).2 = none := by
  induction pairs with
  | nil => intro reg _; rfl
  | cons p rest ih =>
    intro reg h
    obtain ⟨name, id⟩ := p
    cases hf : regFind reg name with
    | some ex =>
      simp only [registerAll, registerOne, hf]
      exact ih reg fun q hq => h q (List.mem_cons_of_mem _ hq)
    | none =>
      have hfs : fs name = none := h (name, id) (List.mem_cons_self _ _) hf
      simp only [registerAll, registerOne, hf, hfs]
      apply ih
      intro q hq hqf
      apply h q (List.mem_cons_of_mem _ hq)
      by_cases hq1 : q.1 = name
      · rw [regFind, if_pos hq1] at hqf; cases hqf
      · rwa [regFind, if_neg hq1] at hqf

theorem registerAll_snd_error (fs : FailSpec) (pairs : List (String × Nat)) :
    ∀ reg e, (registerAll fs reg pairs).2 = some e →
      ∃ p ∈ pairs, fs p.1 = some e := by
  induction pairs with
  | nil => intro reg e h; cases h
  | cons p rest ih =>
    intro reg e h
    obtain ⟨name, id⟩ := p
    cases hf : regFind reg name with
    | some ex =>
      simp only [registerAll, registerOne, hf] at h
      obtain ⟨q, hq, hfsq⟩ := ih _ _ h
      exact ⟨q, List.mem_cons_of_mem _ hq, hfsq⟩
    | none =>
      cases hfs : fs name with
      | some e2 =>
        simp only [registerAll, registerOne, hf, hfs] at h
        obtain rfl : e2 = e := by simpa using h
        exact ⟨(name, id), List.mem_cons_self _ _, hfs⟩
      | none =>
        simp only [registerAll, registerOne, hf, hfs] at h
        obtain ⟨q, hq, hfsq⟩ := ih _ _ h
        exact ⟨q, List.mem_cons_of_mem _ hq, hfsq⟩

theorem registerAll_all_dup (fs : FailSpec) (pairs : List (String × Nat)) :
    ∀ reg : Registry, (∀ p ∈ pairs, regFind reg p.1 ≠ none) →
      registerAll fs reg pairs = (reg, none) := by
  induction pairs with
  | nil => intro reg _; rfl
  | cons p rest ih =>
    intro reg h
    obtain ⟨name, id⟩ := p
    cases hf : regFind reg name with
    | none => exact absurd hf (h (name, id) (List.mem_cons_self _ _))
    | some ex =>
      simp only [registerAll, registerOne, hf]
      exact ih reg fun q hq => h q (List.mem_cons_of_mem _ hq)

theorem initializeMetrics_fst_ok (reg : Registry) (fs : FailSpec) (w : World)
    (h : ∀ n ∈ metricNames, regFind reg n = none → fs n = none) :
    (initializeMetrics reg fs w).1 =
      Except.ok ⟨w.nextId, w.nextId + 1, w.nextId + 2, w.nextId + 3, w.nextId + 4⟩ := by
  have hnone := registerAll_snd_none fs (metricNames.zip
      [w.nextId, w.nextId + 1, w.nextId + 2, w.nextId + 3, w.nextId + 4]) reg
      (fun p hp => h p.1 (List.of_mem_zip hp).1)
  simp only [initializeMetrics]
  rcases hra : registerAll fs reg (metricNames.zip
      [w.nextId, w.nextId + 1, w.nextId + 2, w.nextId + 3, w.nextId + 4]) with ⟨reg2, o⟩
  rw [hra] at hnone
  simp only at hnone
  subst hnone
  rfl

theorem initializeMetrics_fst_error (reg : Registry) (fs : FailSpec) (w : World)
    (e : String) (h : (initializeMetrics reg fs w).1 = .error e) :
    ∃ n ∈ metricNames, fs n = some e := by
  rcases hra : registerAll fs reg (metricNames.zip
      [w.nextId, w.nextId + 1, w.nextId + 2, w.nextId + 3, w.nextId + 4]) with ⟨reg2, o⟩
  simp only [initializeMetrics, hra] at h
  cases o with
  | none => simp at h
  | some e2 =>
    have he : e2 = e := by simpa using h
    subst he
    have hsnd : (registerAll fs reg (metricNames.zip
        [w.nextId, w.nextId + 1, w.nextId + 2, w.nextId + 3, w.nextId + 4])).2
        = some e2 := by rw [hra]
    obtain ⟨p, hp, hfsp⟩ := registerAll_snd_error fs _ _ _ hsnd
    exact ⟨p.1, (List.of_mem_zip hp).1, hfsp⟩

theorem registerMetrics_already (fs : FailSpec) (s : AppState) (g : UsageMetrics)
    (hall : ∀ n ∈ metricNames, regFind s.registry n ≠ none)
    (hg : s.globalUsageMetrics = some g) :
    (registerMetrics fs s).1 = none ∧
    (registerMetrics fs s).2.registry = s.registry ∧
    (registerMetrics fs s).2.globalUsageMetrics = some g ∧
    (registerMetrics fs s).2.world.counts = s.world.counts ∧
    (registerMetrics fs s).2.world.observed = s.world.observed := by
  have hra := registerAll_all_dup fs (metricNames.zip
      [s.world.nextId, s.world.nextId + 1, s.world.nextId + 2,
       s.world.nextId + 3, s.world.nextId + 4]) s.registry
      (fun p hp => hall p.1 (List.of_mem_zip hp).1)
  simp only [registerMetrics, initializeMetrics]
  rw [hra, hg]
  exact ⟨rfl, rfl, rfl, rfl, rfl⟩

theorem recordRequest_counts_total (s : AppState) (g : UsageMetrics) (r : Request)
    (status : Nat) (dur : Rat) (hg : s.globalUsageMetrics = some g)
    (hd : idsDistinct g) :
    (recordRequest s r status dur).world.counts g.requestsTotal
      [itoa status, r.method, r.host, r.path]
    = s.world.counts g.requestsTotal [itoa status, r.method, r.host, r.path] + 1 := by
  show (collectMetrics s.globalUsageMetrics s.world r status dur).counts _ _ = _
  rw [hg]
  exact collectMetrics_counts_total g s.world r status dur hd

/-! Claim theorems. -/

/-- C2: getClientIP resolves the client IP by exact priority: a non-empty
X-Forwarded-For yields its first comma-separated element with surrounding
whitespace trimmed (unvalidated, regardless of any other headers), otherwise a
non-empty X-Real-IP verbatim, otherwise a non-empty X-Forwarded verbatim,
otherwise the peer-address fallback; a present-but-empty X-Forwarded-For falls
through to the next step rather than resolving to the empty string. -/
theorem claimC2_resolution_priority (h : Headers) (ra : Str) :
    (h hdrXFF ≠ [] →
      getClientIP h ra = trimSpace ((h hdrXFF).takeWhile (fun c => c ≠ ','))) ∧
    (h hdrXFF = [] → h hdrXRealIP ≠ [] → getClientIP h ra = h hdrXRealIP) ∧
    (h hdrXFF = [] → h hdrXRealIP = [] → h hdrXForwarded ≠ [] →
      getClientIP h ra = h hdrXForwarded) ∧
    (h hdrXFF = [] → h hdrXRealIP = [] → h hdrXForwarded = [] →
      getClientIP h ra = remoteAddrFallback ra) := by
  refine ⟨fun h1 => ?_, fun h1 h2 => ?_, fun h1 h2 h3 => ?_, fun h1 h2 h3 => ?_⟩
  · simp only [getClientIP, if_pos h1]
    rw [splitChar_headD]
  · simp [getClientIP, h1, h2]
  · simp [getClientIP, h1, h2, h3]
  · simp [getClientIP, h1, h2, h3]

/-- C2 witness: with X-Forwarded-For set to "a, b, c", the resolved IP is the
trimmed first element "a". -/
theorem claimC2_witness :
    xffHeaders hdrXFF ≠ [] ∧
    getClientIP xffHeaders (str "10.0.0.1:8080") = str "a" := by
  refine ⟨by decide, ?_⟩
  have hp := (claimC2_resolution_priority xffHeaders (str "10.0.0.1:8080")).1 (by decide)
  rw [hp]; decide

/-- C4: with none of the three proxy headers set, getClientIP derives the
result from the peer address alone: a bracketed-IPv6 address yields the
substring through the closing bracket inclusive; an address not starting with
a bracket yields the portion before the first colon; and with no colon the
address is returned unchanged. -/
theorem claimC4_peer_fallback (h : Headers) (ra : Str)
    (h1 : h hdrXFF = []) (h2 : h hdrXRealIP = []) (h3 : h hdrXForwarded = []) :
    (ra.take 1 = ['['] → ']' ∈ ra →
      getClientIP h ra = ra.takeWhile (fun c => c ≠ ']') ++ [']']) ∧
    (ra.take 1 ≠ ['['] → getClientIP h ra = ra.takeWhile (fun c => c ≠ ':')) ∧
    (ra.take 1 ≠ ['['] → ':' ∉ ra → getClientIP h ra = ra) := by
  have hfb : getClientIP h ra = remoteAddrFallback ra := by
    simp [getClientIP, h1, h2, h3]
  refine ⟨fun hb hm => ?_, fun hb => ?_, fun hb hc => ?_⟩
  · rw [hfb]
    simp only [remoteAddrFallback, if_pos hb, upToBracket_of_mem _ hm]
  · rw [hfb]
    simp only [remoteAddrFallback, if_neg hb]
    show (splitChar ':' ra).headD ra = _
    rw [splitChar_headD]
  · rw [hfb]
    simp only [remoteAddrFallback, if_neg hb]
    show (splitChar ':' ra).headD ra = ra
    rw [splitChar_headD]
    exact List.takeWhile_eq_self_iff.2 fun x hx => by
      simp only [decide_eq_true_eq]
      exact fun he => hc (he ▸ hx)

/-- C4 witness: peer address "[2001:db8::1]:8080" with no proxy headers
resolves to "[2001:db8::1]". -/
theorem claimC4_witness :
    noHeaders hdrXFF = [] ∧
    getClientIP noHeaders (str "[2001:db8::1]:8080") = str "[2001:db8::1]" := by
  refine ⟨rfl, ?_⟩
  have hp := (claimC4_peer_fallback noHeaders (str "[2001:db8::1]:8080")
    rfl rfl rfl).1 (by decide) (by decide)
  rw [hp]; decide

/-- C9: with no proxy headers and a peer address starting with a bracket but
containing no closing bracket, getClientIP falls through to colon-splitting
and returns the portion before the first colon. -/
theorem claimC9_unclosed_bracket (h : Headers) (ra : Str)
    (h1 : h hdrXFF = []) (h2 : h hdrXRealIP = []) (h3 : h hdrXForwarded = [])
    (hb : ra.take 1 = ['[']) (hnb : ']' ∉ ra) :
    getClientIP h ra = ra.takeWhile (fun c => c ≠ ':') := by
  have hfb : getClientIP h ra = remoteAddrFallback ra := by
    simp [getClientIP, h1, h2, h3]
  rw [hfb]
  simp only [remoteAddrFallback, if_pos hb, upToBracket_of_not_mem _ hnb]
  show (splitChar ':' ra).headD ra = _
  rw [splitChar_headD]

/-- C9 witness: the peer address "[::1" resolves to "[", not to the peer
address unchanged. -/
theorem claimC9_witness :
    (str "[::1").take 1 = ['['] ∧ ']' ∉ str "[::1" ∧
    getClientIP noHeaders (str "[::1") = str "[" ∧
    getClientIP noHeaders (str "[::1") ≠ str "[::1" := by
  have hp := claimC9_unclosed_bracket noHeaders (str "[::1") rfl rfl rfl
    (by decide) (by decide)
  have h3 : getClientIP noHeaders (str "[::1") = str "[" := by rw [hp]; decide
  exact ⟨by decide, by decide, h3, by rw [h3]; decide⟩

/-- C5: a tracked header with a non-empty value is recorded with label value
"present" when the header is Authorization, the first 100 characters plus the
ellipsis marker when the value is longer than 100 characters, and the value
verbatim otherwise. -/
theorem claimC5_header_value_transform (h : Headers) (method statusCode name : Str)
    (hmem : name ∈ importantHeaders) (hne : h name ≠ []) :
    [name, transformHeaderValue name (h name), method, statusCode]
        ∈ collectHeaderMetrics h method statusCode ∧
    (name = str "Authorization" →
      transformHeaderValue name (h name) = str "present") ∧
    (name ≠ str "Authorization" → (h name).length > 100 →
      transformHeaderValue name (h name) = (h name).take 100 ++ str "...") ∧
    (name ≠ str "Authorization" → (h name).length ≤ 100 →
      transformHeaderValue name (h name) = h name) := by
  refine ⟨?_, fun ha => ?_, fun ha hl => ?_, fun ha hl => ?_⟩
  · rw [collectHeaderMetrics, mem_collectHeaderMetricsList]
    exact ⟨name, hmem, hne, rfl⟩
  · simp only [transformHeaderValue, if_pos ha]
    rw [if_neg (by decide)]
  · simp only [transformHeaderValue, if_neg ha]
    rw [if_pos hl]
  · simp only [transformHeaderValue, if_neg ha]
    rw [if_neg (Nat.not_lt.2 hl)]

/-- C5 witness: an Authorization value "Bearer xyz" is recorded as "present",
and a 150-character value is recorded as its first 100 characters followed by
the 3-character ellipsis marker, 103 characters in total. -/
theorem claimC5_witness :
    (str "Authorization" ∈ importantHeaders ∧
     authHeaders (str "Authorization") ≠ [] ∧
     transformHeaderValue (str "Authorization") (authHeaders (str "Authorization"))
       = str "present") ∧
    (transformHeaderValue (str "User-Agent") (longHeaders (str "User-Agent"))
       = List.replicate 100 'a' ++ str "..." ∧
     (transformHeaderValue (str "User-Agent") (longHeaders (str "User-Agent"))).length
       = 103) := by
  constructor
  · refine ⟨by decide, by decide, ?_⟩
    exact (claimC5_header_value_transform authHeaders [] [] (str "Authorization")
      (by decide) (by decide)).2.1 rfl
  · have ht := (claimC5_header_value_transform longHeaders [] [] (str "User-Agent")
      (by decide) (by decide)).2.2.1 (by decide) (by decide)
    refine ⟨?_, ?_⟩
    · rw [ht]; decide
    · rw [ht]; decide

/-- C6: the requests_by_headers_total increments of one request are exactly
one per allow-listed header name with a non-empty value, labeled with the
header name, the transformed value, the method and the status code; an
untracked header or an allow-listed header with an empty value produces no
increment. -/
theorem claimC6_allowlist_exactly (h : Headers) (method statusCode : Str) :
    (∀ t, t ∈ collectHeaderMetrics h method statusCode ↔
      ∃ n, n ∈ importantHeaders ∧ h n ≠ [] ∧
        t = [n, transformHeaderValue n (h n), method, statusCode]) ∧
    (∀ n, n ∈ importantHeaders → h n ≠ [] →
      (collectHeaderMetrics h method statusCode).count
        [n, transformHeaderValue n (h n), method, statusCode] = 1) := by
  constructor
  · intro t
    exact mem_collectHeaderMetricsList h method statusCode importantHeaders t
  · intro n hmem hne
    exact count_collectHeaderMetricsList h method statusCode importantHeaders
      (by decide) n hmem hne

/-- C6 witness: a tracked User-Agent header produces exactly one increment,
and an untracked X-Custom-Header header produces none. -/
theorem claimC6_witness :
    (str "User-Agent" ∈ importantHeaders ∧ mixedHeaders (str "User-Agent") ≠ []) ∧
    (collectHeaderMetrics mixedHeaders (str "GET") (str "200")).count
      [str "User-Agent",
       transformHeaderValue (str "User-Agent") (mixedHeaders (str "User-Agent")),
       str "GET", str "200"] = 1 ∧
    [str "X-Custom-Header", str "x", str "GET", str "200"]
      ∉ collectHeaderMetrics mixedHeaders (str "GET") (str "200") := by
  refine ⟨⟨by decide, by decide⟩, ?_, ?_⟩
  · exact (claimC6_allowlist_exactly mixedHeaders (str "GET") (str "200")).2 _
      (by decide) (by decide)
  · intro hmem
    rw [(claimC6_allowlist_exactly mixedHeaders (str "GET") (str "200")).1] at hmem
    obtain ⟨n, hn, hne, ht⟩ := hmem
    have heq : str "X-Custom-Header" = n := by
      have := congrArg (fun l => l.headD []) ht
      simpa using this
    subst heq
    revert hn
    decide

/-- C7: when the metric set is nil, collectMetrics returns with the sink
completely unchanged — no counter or histogram is updated and nothing is
raised to the caller. -/
theorem claimC7_nil_guard (w : World) (r : Request) (status : Nat) (dur : Rat) :
    collectMetrics none w r status dur = w := rfl

/-- C1 counterexample: with requests_total already registered as collector 0,
initializeMetrics succeeds but returns the metric set of the newly constructed
collectors 1 through 5 — requestsTotal is the new collector 1, not the
already-registered collector 0, so the already-registered instrument is not
adopted in place of the newly constructed one. -/
theorem claimC1_counterexample :
    regFind regDup "caddy_usage_requests_total" = some 0 ∧
    (initializeMetrics regDup noFail worldAfterOne).1 =
      Except.ok ⟨1, 2, 3, 4, 5⟩ ∧
    (⟨1, 2, 3, 4, 5⟩ : UsageMetrics).requestsTotal ≠ 0 := by decide

/-- C1 (amended): registration proceeds one instrument at a time; when every
registration either succeeds or fails as a duplicate, initialization succeeds
and returns, without error, the metric set of the five newly constructed
instruments (it does not adopt already-registered ones); and any error
returned is the underlying non-duplicate registration error of one of the
five instrument names. -/
theorem claimC1_duplicate_tolerated (reg : Registry) (fs : FailSpec) (w : World) :
    ((∀ n ∈ metricNames, regFind reg n = none → fs n = none) →
      (initializeMetrics reg fs w).1 =
        Except.ok ⟨w.nextId, w.nextId + 1, w.nextId + 2, w.nextId + 3, w.nextId + 4⟩) ∧
    (∀ e, (initializeMetrics reg fs w).1 = .error e →
      ∃ n ∈ metricNames, fs n = some e) :=
  ⟨initializeMetrics_fst_ok reg fs w,
   fun e h => initializeMetrics_fst_error reg fs w e h⟩

/-- C1 witness: on a registry where requests_total is already registered,
initialization succeeds and returns the newly constructed set 1..5. -/
theorem claimC1_witness :
    (∀ n ∈ metricNames, regFind regDup n = none → noFail n = none) ∧
    (initializeMetrics regDup noFail worldAfterOne).1 =
      Except.ok ⟨worldAfterOne.nextId, worldAfterOne.nextId + 1,
        worldAfterOne.nextId + 2, worldAfterOne.nextId + 3,
        worldAfterOne.nextId + 4⟩ :=
  ⟨by decide, (claimC1_duplicate_tolerated regDup noFail worldAfterOne).1 (by decide)⟩

/-- C3: one recorded request makes exactly one update to each of the four
per-request instruments: requests_total at (status code as decimal string,
method, host, path), requests_by_ip_total at (resolved client IP, status code,
method), requests_by_url_total at (full URL, method, status code), each
incremented by one with every other cell of that instrument unchanged, and
request_duration_seconds receives exactly one observation equal to the elapsed
duration at (method, status code, host), with all other observation cells
unchanged. -/
theorem claimC3_per_request_updates (m : UsageMetrics) (w : World) (r : Request)
    (status : Nat) (dur : Rat) (hd : idsDistinct m) :
    ((collectMetrics (some m) w r status dur).counts m.requestsTotal
        [itoa status, r.method, r.host, r.path]
      = w.counts m.requestsTotal [itoa status, r.method, r.host, r.path] + 1) ∧
    (∀ ls, ls ≠ [itoa status, r.method, r.host, r.path] →
      (collectMetrics (some m) w r status dur).counts m.requestsTotal ls
        = w.counts m.requestsTotal ls) ∧
    ((collectMetrics (some m) w r status dur).counts m.requestsByIP
        [getClientIP r.headers r.remoteAddr, itoa status, r.method]
      = w.counts m.requestsByIP
          [getClientIP r.headers r.remoteAddr, itoa status, r.method] + 1) ∧
    (∀ ls, ls ≠ [getClientIP r.headers r.remoteAddr, itoa status, r.method] →
      (collectMetrics (some m) w r status dur).counts m.requestsByIP ls
        = w.counts m.requestsByIP ls) ∧
    ((collectMetrics (some m) w r status dur).counts m.requestsByURL
        [r.fullURL, r.method, itoa status]
      = w.counts m.requestsByURL [r.fullURL, r.method, itoa status] + 1) ∧
    (∀ ls, ls ≠ [r.fullURL, r.method, itoa status] →
      (collectMetrics (some m) w r status dur).counts m.requestsByURL ls
        = w.counts m.requestsByURL ls) ∧
    ((collectMetrics (some m) w r status dur).observed m.requestDuration
        [r.method, itoa status, r.host]
      = w.observed m.requestDuration [r.method, itoa status, r.host] ++ [dur]) ∧
    (∀ i ls, ¬(i = m.requestDuration ∧ ls = [r.method, itoa status, r.host]) →
      (collectMetrics (some m) w r status dur).observed i ls = w.observed i ls) :=
  ⟨collectMetrics_counts_total m w r status dur hd,
   fun ls hls => collectMetrics_counts_total_frame m w r status dur hd ls hls,
   collectMetrics_counts_byIP m w r status dur hd,
   fun ls hls => collectMetrics_counts_byIP_frame m w r status dur hd ls hls,
   collectMetrics_counts_byURL m w r status dur hd,
   fun ls hls => collectMetrics_counts_byURL_frame m w r status dur hd ls hls,
   collectMetrics_observed_duration m w r status dur,
   fun i ls h => collectMetrics_observed_frame m w r status dur i ls h⟩

/-- C3 witness: recording one GET request against a fresh sink puts
requests_total at (200, GET, example.com, /test) to one. -/
theorem claimC3_witness :
    idsDistinct m0 ∧
    (collectMetrics (some m0) emptyWorld exReq 200 1).counts 0
      [str "200", str "GET", str "example.com", str "/test"] = 1 := by
  refine ⟨by decide, ?_⟩
  have h1 := (claimC3_per_request_updates m0 emptyWorld exReq 200 1 (by decide)).1
  exact h1

/-- C8: calling registerMetrics twice against the same registry succeeds both
times without error, the second call leaves the effective metric set
unchanged, and a request recorded after the second initialization increments
the same underlying requests_total counter cell as one recorded after the
first, so the cell holds the cumulative count two. -/
theorem claimC8_reinit_continuity (r : Request) (status : Nat) (dur : Rat) :
    (registerMetrics noFail initialState).1 = none ∧
    (registerMetrics noFail stateAfterInit1).1 = none ∧
    (registerMetrics noFail stateAfterInit1).2.globalUsageMetrics
      = stateAfterInit1.globalUsageMetrics ∧
    (recordRequest ((registerMetrics noFail
        (recordRequest stateAfterInit1 r status dur)).2) r status dur).world.counts
      m0.requestsTotal [itoa status, r.method, r.host, r.path] = 2 := by
  refine ⟨by decide, by decide, by decide, ?_⟩
  have hga : (recordRequest stateAfterInit1 r status dur).globalUsageMetrics
      = some m0 := rfl
  have hall : ∀ n ∈ metricNames,
      regFind (recordRequest stateAfterInit1 r status dur).registry n ≠ none := by
    show ∀ n ∈ metricNames, regFind stateAfterInit1.registry n ≠ none
    decide
  obtain ⟨-, -, hg2, hcounts2, -⟩ := registerMetrics_already noFail
    (recordRequest stateAfterInit1 r status dur) m0 hall hga
  rw [recordRequest_counts_total _ m0 r status dur hg2 (by decide), hcounts2,
    recordRequest_counts_total stateAfterInit1 m0 r status dur rfl (by decide)]
  rfl

/-- C10: when registering the third instrument fails with a non-duplicate
error while the first two were newly registered, initializeMetrics returns
that error and the first two instruments remain registered in the registry —
failed initialization leaves the registry partially populated. -/
theorem claimC10_partial_registration (reg : Registry) (fs : FailSpec)
    (w : World) (e : String)
    (h1 : regFind reg "caddy_usage_requests_total" = none)
    (h2 : regFind reg "caddy_usage_requests_by_ip_total" = none)
    (h3 : regFind reg "caddy_usage_requests_by_url_total" = none)
    (f1 : fs "caddy_usage_requests_total" = none)
    (f2 : fs "caddy_usage_requests_by_ip_total" = none)
    (f3 : fs "caddy_usage_requests_by_url_total" = some e) :
    (initializeMetrics reg fs w).1 = Except.error e ∧
    regFind (initializeMetrics reg fs w).2.1 "caddy_usage_requests_total"
      = some w.nextId ∧
    regFind (initializeMetrics reg fs w).2.1 "caddy_usage_requests_by_ip_total"
      = some (w.nextId + 1) ∧
    regFind (initializeMetrics reg fs w).2.1 "caddy_usage_requests_by_url_total"
      = none := by
  have hstep : registerAll fs reg (metricNames.zip
      [w.nextId, w.nextId + 1, w.nextId + 2, w.nextId + 3, w.nextId + 4])
      = (("caddy_usage_requests_by_ip_total", w.nextId + 1) ::
         ("caddy_usage_requests_total", w.nextId) :: reg, some e) := by
    show registerAll fs reg [("caddy_usage_requests_total", w.nextId),
        ("caddy_usage_requests_by_ip_total", w.nextId + 1),
        ("caddy_usage_requests_by_url_total", w.nextId + 2),
        ("caddy_usage_requests_by_headers_total", w.nextId + 3),
        ("caddy_usage_request_duration_seconds", w.nextId + 4)] = _
    simp only [registerAll, registerOne, regFind, h1, h2, h3, f1, f2, f3,
      String.reduceEq, reduceIte]
  simp only [initializeMetrics, hstep]
  refine ⟨trivial, ?_, ?_, ?_⟩
  · simp only [regFind, String.reduceEq, reduceIte]
  · simp only [regFind, String.reduceEq, reduceIte]
  · simp only [regFind, String.reduceEq, reduceIte]
    exact h3

/-- C10 witness: on an empty registry with a sink failing the third
instrument, initialization returns the error and keeps the first instrument
registered. -/
theorem claimC10_witness :
    regFind ([] : Registry) "caddy_usage_requests_total" = none ∧
    failURL "caddy_usage_requests_by_url_total" = some "boom" ∧
    (initializeMetrics [] failURL emptyWorld).1 = Except.error "boom" ∧
    regFind (initializeMetrics [] failURL emptyWorld).2.1
      "caddy_usage_requests_total" = some emptyWorld.nextId := by
  have hc := claimC10_partial_registration [] failURL emptyWorld "boom"
    (by decide) (by decide) (by decide) (by decide) (by decide) (by decide)
  exact ⟨by decide, by decide, hc.1, hc.2.1⟩

end CaddyUsage
